import Mathlib

/-!
Verification of the deer-flow-go multi-agent routing core.

This file gives a shallow embedding of the router functions of the
repository (the per-node routing logic of the coordinator, planner,
human-feedback, research-team, researcher/coder and background-investigator
nodes) and proves the stated routing/decision-table properties about them.

Sources embedded:
  - entity/consts/consts.go        (node-name and feedback constants)
  - entity/model/state.go          (the shared State record)
  - agent/agent.go, agent/human    (routerHuman)
  - agent/coordinator/coordinator.go (coordinator router)
  - agent/planner (unnamed part_004) (routerPlanner)
  - agent/researcher (unnamed part_003) (teamRouter)
  - agent/coder (unnamed part_004) / biz/eino researcher.go (routerCoder /
    routerResearcher — identical step-update logic)
  - biz/eino/researcher.go / part_002 (modifyInputfunc / modifyCoderfunc)
  - agent/investigator/investigator.go and biz/eino/investigator.go (search)

Go `int` is embedded as `Int`, Go strings as `String` (message content,
which is byte-sliced in Go, as `List Char` so that length/slicing is
positional), `*T` pointers that may be nil as `Option T`, and
`json.Unmarshal` outcomes as `Option` of the parsed value.
-/

namespace DeerFlow

/-- Node-name constants, from entity/consts/consts.go. -/
def Coordinator : String := "coordinator"

def Planner : String := "planner"

def Reporter : String := "reporter"

def Researcher : String := "researcher"

def Coder : String := "coder"

def ResearchTeam : String := "research_team"

def BackgroundInvestigator : String := "background_investigator"

def Human : String := "human_feedback"

/-- Human feedback option, from entity/consts/consts.go: `EditPlan = "edit_plan"`. -/
def EditPlan : String := "edit_plan"

/-- Human feedback option, from entity/consts/consts.go: `AcceptPlan = "accepted"`. -/
def AcceptPlan : String := "accepted"

/-- The end sentinel of the external graph framework (`compose.END`).
Its concrete value is framework-internal; it is distinct from every node
name above, which is all the routing logic relies on. -/
def END : String := "end"

/-- Modelled from the spec: the Step's `stepType` enum (§3: "stepType
(enum: Research | Processing)").  The Go file defining `model.Step` /
`model.Plan` (the plan model of biz/model resp. entity/model) is not under
src/; only its users are.  Constructors follow the spec's two enum values,
which is also exactly the set of values matched by the `switch
step.StepType` in the research-team router. -/
inductive StepType where
  | research : StepType
  | processing : StepType
deriving DecidableEq, Repr

/-- Modelled from the spec: one unit of work within a Plan (§3).
`executionRes` is `*string` in Go — absent (`none`) means "not yet
executed". -/
structure Step where
  title : String
  description : String
  stepType : StepType
  executionRes : Option String
deriving DecidableEq, Repr

/-- Modelled from the spec: the Plan record produced by the planner (§3):
`title`, `thought`, `hasEnoughContext`, `steps`. -/
structure Plan where
  title : String
  thought : String
  hasEnoughContext : Bool
  steps : List Step
deriving DecidableEq, Repr

/-- One tool call inside a model response message (`schema.ToolCall`).
`funcName` is `ToolCall.Function.Name`; `args` embeds the result of
`json.Unmarshal(Function.Arguments, &map[string]string{})`: `none` when
the argument string is not valid JSON for a string map, `some m` with the
parsed key/value pairs otherwise. -/
structure ToolCall where
  funcName : String
  args : Option (List (String × String))
deriving DecidableEq, Repr

/-- A model/conversation message (`*schema.Message`), with the fields the
routers read: the content (Go byte string, embedded positionally as
`List Char`) and the tool calls. -/
structure Message where
  role : String
  content : List Char
  toolCalls : List ToolCall
deriving DecidableEq, Repr

/-- Go map indexing `m[k]` for a `map[string]string`: the value stored at
`k`, or the zero value `""` when the key is absent. -/
def mapIndex (m : List (String × String)) (k : String) : String :=
  match m.find? (fun kv => kv.1 = k) with
  | some kv => kv.2
  | none => ""

/-- The shared State record, from entity/model/state.go.  Pointers that
may be nil (`[]*schema.Message` elements, `*Plan`) are `Option`s; Go `int`
is `Int`. -/
structure State where
  messages : List (Option Message)
  goto : String
  currentPlan : Option Plan
  locale : String
  planIterations : Int
  backgroundInvestigationResults : String
  interruptFeedback : String
  maxPlanIterations : Int
  maxStepNum : Int
  autoAcceptedPlan : Bool
  enableBackgroundInvestigation : Bool
deriving DecidableEq, Repr

/-! ### Human Feedback router

From `router` in agent/human (agent.go) = `routerHuman` in part_001.
The Go function mutates the state under `ProcessState` and uses a `defer`
that runs on *every* exit of the closure — including the
`return compose.InterruptAndRerun` path — first copying `state.Goto` into
the output and then clearing `state.InterruptFeedback`. -/

/-- Result of one human-feedback router invocation: the state after the
closure (deferred writes included), the string output, and whether the
closure returned the `compose.InterruptAndRerun` sentinel error. -/
structure HumanResult where
  state : State
  output : String
  interrupt : Bool
deriving DecidableEq, Repr

/-- Shallow embedding of `routerHuman` (agent/human router).  Mirrors the
Go control flow: `state.Goto = ResearchTeam` first; if the plan is not
auto-accepted, switch on `interruptFeedback` (accepted / edit_plan /
default → InterruptAndRerun); the deferred block then sets the output from
`state.Goto` and clears `interruptFeedback`, on every path. -/
def routerHuman (s0 : State) : HumanResult :=
  let s1 : State := { s0 with goto := ResearchTeam }
  let body : State × Bool :=
    if ¬ s0.autoAcceptedPlan then
      if s0.interruptFeedback = AcceptPlan then
        (s1, false)
      else if s0.interruptFeedback = EditPlan then
        ({ s1 with goto := Planner }, false)
      else
        (s1, true)
    else
      ({ s1 with goto := ResearchTeam }, false)
  { state := { body.1 with interruptFeedback := "" }
    output := body.1.goto
    interrupt := body.2 }

/-! ### Coordinator router

From `router` in agent/coordinator/coordinator.go.  The Go code tests
`len(input.ToolCalls) > 0 && input.ToolCalls[0].Function.Name ==
"hand_to_planner"`: only the *first* tool call of the message is
inspected.  On a JSON-unmarshal failure of the call's arguments the
closure logs and returns the error — so `state.Locale` is never assigned
and `state.Goto` keeps the `compose.END` set at the top — but the router
itself ends with `return output, nil`, discarding that closure error. -/

/-- Result of one coordinator router invocation.  `closureErr` is whether
the `ProcessState` closure returned a non-nil error (the unmarshal
failure); `err` is the error actually returned by the router function
(`return output, nil`: always nil). -/
structure CoordResult where
  state : State
  output : String
  closureErr : Bool
  err : Bool
deriving DecidableEq, Repr

/-- Shallow embedding of the coordinator `router`
(agent/coordinator/coordinator.go). -/
def routerCoordinator (input : Message) (s0 : State) : CoordResult :=
  let s1 : State := { s0 with goto := END }
  match input.toolCalls with
  | [] => { state := s1, output := s1.goto, closureErr := false, err := false }
  | tc :: _ =>
    if tc.funcName = "hand_to_planner" then
      match tc.args with
      | none =>
        { state := s1, output := s1.goto, closureErr := true, err := false }
      | some m =>
        let s2 : State := { s1 with locale := mapIndex m "locale" }
        let s3 : State :=
          { s2 with
            goto :=
              if s2.enableBackgroundInvestigation then BackgroundInvestigator
              else Planner }
        { state := s3, output := s3.goto, closureErr := false, err := false }
    else { state := s1, output := s1.goto, closureErr := false, err := false }

/-! ### Planner router

From `router` in agent/planner (unnamed part_004) = `routerPlanner` in
part_000.  `json.Unmarshal(input.Content, state.CurrentPlan)` is embedded
by its outcome `parsed : Option Plan` (`none` = parse failure). -/

/-- `&model.Plan{}`: the fresh empty plan the router installs before
parsing.  On a failed parse the Go plan may additionally carry whatever
fields were decoded before the error; no claim reads the plan after a
failed parse, so the embedding keeps the fresh value. -/
def emptyPlan : Plan :=
  { title := "", thought := "", hasEnoughContext := false, steps := [] }

/-- Result of one planner router invocation; `err` is the error the
router function returns (the closure returns nil on every path, and the
router returns that). -/
structure PlannerResult where
  state : State
  output : String
  err : Bool
deriving DecidableEq, Repr

/-- Shallow embedding of the planner router (agent/planner, part_004):
default `Goto = END`, reset `CurrentPlan`, then branch on the parse
outcome exactly as the Go code does. -/
def routerPlanner (parsed : Option Plan) (s0 : State) : PlannerResult :=
  let s1 : State := { s0 with goto := END, currentPlan := some emptyPlan }
  match parsed with
  | none =>
    if s1.planIterations > 0 then
      let s2 : State := { s1 with goto := Reporter }
      { state := s2, output := s2.goto, err := false }
    else
      { state := s1, output := s1.goto, err := false }
  | some p =>
    let s2 : State :=
      { s1 with currentPlan := some p, planIterations := s1.planIterations + 1 }
    let s3 : State :=
      if p.hasEnoughContext then { s2 with goto := Reporter }
      else { s2 with goto := Human }
    { state := s3, output := s3.goto, err := false }

/-! ### Research Team router

From `teamRouter` in agent/researcher (unnamed part_003) =
`routerResearchTeam` in biz/eino/reporter.go. -/

/-- The step-scanning loop of `teamRouter`: skip steps whose
`ExecutionRes` is non-nil; at the first unexecuted step switch on its
`StepType` (Research → Researcher, Processing → Coder); `none` when the
loop falls through with every step executed. -/
def teamScan : List Step → Option String
  | [] => none
  | step :: rest =>
    if step.executionRes.isSome then teamScan rest
    else
      match step.stepType with
      | .research => some Researcher
      | .processing => some Coder

/-- Shallow embedding of `teamRouter` (agent/researcher, part_003):
default `Goto = Planner`; nil plan → Planner; otherwise scan the steps;
all executed → Reporter iff `PlanIterations >= MaxPlanIterations`. -/
def teamRouter (s0 : State) : State × String :=
  let s1 : State := { s0 with goto := Planner }
  match s0.currentPlan with
  | none => (s1, s1.goto)
  | some plan =>
    match teamScan plan.steps with
    | some target => ({ s1 with goto := target }, target)
    | none =>
      if s1.planIterations ≥ s1.maxPlanIterations then
        ({ s1 with goto := Reporter }, Reporter)
      else (s1, s1.goto)

/-! ### Researcher / Coder result-writing routers

From `routerResearcher` in biz/eino/researcher.go and `routerCoder` in
agent/coder (unnamed part_004) / part_002 — the step-update loop is
identical in all of them: find the first step with nil `ExecutionRes`,
store a clone of the model output there, break, then `Goto =
ResearchTeam`. -/

/-- Outcome of running a node body that can hit a Go runtime panic
(nil-pointer dereference / index out of range). -/
inductive RunOutcome (α : Type) where
  | ok : α → RunOutcome α
  | panicked : RunOutcome α
deriving DecidableEq, Repr

/-- The result-writing loop: `for i, step := range steps { if
step.ExecutionRes == nil { steps[i].ExecutionRes = &clone; break } }`.
`strings.Clone` is the identity on the string value. -/
def setFirstUnexecuted (content : String) : List Step → List Step
  | [] => []
  | step :: rest =>
    if step.executionRes = none then
      { step with executionRes := some content } :: rest
    else
      step :: setFirstUnexecuted content rest

/-- Shallow embedding of `routerResearcher` (biz/eino/researcher.go).
`input.Content` is the final model output, passed here as `content`.
Reading `state.CurrentPlan.Steps` with a nil plan is a nil-pointer
dereference, hence `panicked` on `currentPlan = none`. -/
def routerResearcher (content : String) (s0 : State) : RunOutcome (State × String) :=
  match s0.currentPlan with
  | none => .panicked
  | some plan =>
    let plan' : Plan := { plan with steps := setFirstUnexecuted content plan.steps }
    let s1 : State := { s0 with currentPlan := some plan', goto := ResearchTeam }
    .ok (s1, s1.goto)

/-- Shallow embedding of `routerCoder` (agent/coder, part_004): the same
body as `routerResearcher`, from its own source function. -/
def routerCoder (content : String) (s0 : State) : RunOutcome (State × String) :=
  match s0.currentPlan with
  | none => .panicked
  | some plan =>
    let plan' : Plan := { plan with steps := setFirstUnexecuted content plan.steps }
    let s1 : State := { s0 with currentPlan := some plan', goto := ResearchTeam }
    .ok (s1, s1.goto)

/-! ### Message truncation guard

From `modifyInputfunc` in biz/eino/researcher.go = `modifyCoderfunc` in
part_002: for each non-nil message, when `len(Content) > 50000` replace
the content by `Content[len-50000:]`.  Go slicing is positional on the
byte string, embedded here as `List.drop` on the positional content. -/

/-- The per-message content limit (`maxLimit := 50000`). -/
def maxLimit : Nat := 50000

/-- The truncation applied to one (non-nil) message. -/
def truncateMsg (msg : Message) : Message :=
  if msg.content.length > maxLimit then
    { msg with content := msg.content.drop (msg.content.length - maxLimit) }
  else msg

/-- Shallow embedding of `modifyInputfunc` / `modifyCoderfunc`: nil
entries are skipped (left in place), every other message has its content
truncated in place; the running `sum` is only logged. -/
def modifyInputfunc (input : List (Option Message)) : List (Option Message) :=
  input.map fun m =>
    match m with
    | none => none
    | some msg => some (truncateMsg msg)

/-! ### Background Investigator search stage

Two implementations exist in the repository: the one wired into the graph
by main.go (`search` in agent/investigator/investigator.go, "live") and
the legacy one (`search` in biz/eino/investigator.go, "eino").  Both pick
the first tool whose name ends with "search" and invoke it with
`{query: <content of the last message>}`; they differ in what they do
when the invocation returns an error. -/

/-- A tool as seen through its `Info`: the routers only read the name.
The embedding assumes the `tool.(tool.InvokableTool)` type assertion of
the Go code succeeds (every registered MCP tool is invokable). -/
structure MCPToolInfo where
  name : String
deriving DecidableEq, Repr

/-- Go's `strings.HasSuffix`, positionally on the string's characters. -/
def goHasSuffix (s suffix : String) : Bool :=
  suffix.data.isSuffixOf s.data

/-- Outcome of one run of a search stage: the node returns nil error with
the new state, returns a non-nil error, or panics at runtime. -/
inductive SearchOutcome where
  | ok : State → SearchOutcome
  | errored : String → SearchOutcome
  | panicked : SearchOutcome
deriving DecidableEq, Repr

/-- Tool selection of the live investigator: scan the flat MCP tool list
for the first tool whose name has the suffix "search"
(`strings.HasSuffix(toolInfo.Name, "search")`). -/
def selectSearchToolLive (toolList : List MCPToolInfo) : Option MCPToolInfo :=
  toolList.find? fun t => goHasSuffix t.name "search"

/-- Tool selection of the legacy eino investigator: per-server loop; a
server whose `GetTools` fails (`none`) is logged and skipped; otherwise
the first "search"-suffixed tool of that server wins. -/
def selectSearchToolEino : List (Option (List MCPToolInfo)) → Option MCPToolInfo
  | [] => none
  | none :: rest => selectSearchToolEino rest
  | some ts :: rest =>
    match ts.find? (fun t => goHasSuffix t.name "search") with
    | some t => some t
    | none => selectSearchToolEino rest

/-- `state.Messages[len(state.Messages)-1].Content`: `none` when the
message list is empty (index out of range) or the last entry is a nil
pointer — both Go runtime panics at the use site. -/
def lastMessageContent (s : State) : Option (List Char) :=
  match s.messages.getLast? with
  | some (some m) => some m.content
  | _ => none

/-- Shallow embedding of the live `search`
(agent/investigator/investigator.go).  `runTool t q` embeds
`searchTool.InvokableRun` on the marshalled `{query: q}` arguments,
returning the Go pair (result string, error).  The selection runs first;
inside the closure the query is built (panicking on a missing last
message) and the selected tool is invoked — an invocation on the nil tool
interface is a nil-pointer panic.  On a tool error the closure returns
the error and the node propagates it (`return output, err`). -/
def searchLive (toolList : List MCPToolInfo)
    (runTool : MCPToolInfo → List Char → String × Option String)
    (s0 : State) : SearchOutcome :=
  let sel := selectSearchToolLive toolList
  match lastMessageContent s0 with
  | none => .panicked
  | some q =>
    match sel with
    | none => .panicked
    | some t =>
      match runTool t q with
      | (_, some e) => .errored e
      | (result, none) => .ok { s0 with backgroundInvestigationResults := result }

/-- Shallow embedding of the legacy `search` (biz/eino/investigator.go):
same selection over the per-server lists; on a tool error the code only
logs (`ilog.EventError`) and still stores the returned result string
(empty in the error case), returning nil from the closure. -/
def searchEino (servers : List (Option (List MCPToolInfo)))
    (runTool : MCPToolInfo → List Char → String × Option String)
    (s0 : State) : SearchOutcome :=
  let sel := selectSearchToolEino servers
  match lastMessageContent s0 with
  | none => .panicked
  | some q =>
    match sel with
    | none => .panicked
    | some t =>
      let r := runTool t q
      .ok { s0 with backgroundInvestigationResults := r.1 }

/-- The investigator's router node (`router` in
agent/investigator/investigator.go = `bIRouter` in
biz/eino/investigator.go): unconditionally `Goto = Planner`. -/
def routerInvestigator (s0 : State) : State × String :=
  let s1 : State := { s0 with goto := Planner }
  (s1, s1.goto)

/-! ### Concrete inputs used by witnesses and counterexamples -/

/-- A baseline state matching the initial state built by
`BuildAgentGraph` (agent/agent.go): auto-accepted plan, no plan yet,
`Goto = Coordinator`. -/
def baseState : State :=
  { messages := []
    goto := Coordinator
    currentPlan := none
    locale := ""
    planIterations := 0
    backgroundInvestigationResults := ""
    interruptFeedback := ""
    maxPlanIterations := 1
    maxStepNum := 3
    autoAcceptedPlan := true
    enableBackgroundInvestigation := false }

/-- A two-step plan whose first step is already executed and whose second
(Processing) step is not. -/
def examplePlan : Plan :=
  { title := "t"
    thought := "th"
    hasEnoughContext := false
    steps :=
      [{ title := "s0", description := "d0", stepType := .research,
         executionRes := some "done" },
       { title := "s1", description := "d1", stepType := .processing,
         executionRes := none }] }

/-- State sitting at the research-team dispatcher with `examplePlan`. -/
def teamExState : State :=
  { baseState with goto := ResearchTeam, currentPlan := some examplePlan }

/-- State entering the human-feedback node with an accepted plan review. -/
def humanAcceptState : State :=
  { baseState with
    goto := Human
    autoAcceptedPlan := false
    interruptFeedback := AcceptPlan }

/-- State entering the human-feedback node with no feedback supplied yet
(the interrupt case). -/
def humanEmptyState : State :=
  { baseState with
    goto := Human
    autoAcceptedPlan := false
    interruptFeedback := "" }

/-- A model response whose *second* tool call is the hand-off tool: the
coordinator claim's "contains a call to the hand-off tool" is satisfied,
but the code only looks at the first call. -/
def secondCallMsg : Message :=
  { role := "assistant"
    content := []
    toolCalls :=
      [{ funcName := "web_search", args := some [] },
       { funcName := "hand_to_planner",
         args := some [("task_title", "t"), ("locale", "zh-CN")] }] }

/-- A model response whose first (only) tool call is the hand-off tool
with well-formed arguments. -/
def handoffMsg : Message :=
  { role := "assistant"
    content := []
    toolCalls :=
      [{ funcName := "hand_to_planner",
         args := some [("task_title", "t"), ("locale", "zh-CN")] }] }

/-- A model response whose hand-off tool call has malformed (non-JSON)
arguments. -/
def badArgsMsg : Message :=
  { role := "assistant"
    content := []
    toolCalls := [{ funcName := "hand_to_planner", args := none }] }

/-- Coordinator-stage state with a previously set locale. -/
def coordState : State :=
  { baseState with locale := "en-US" }

/-- A search tool whose name ends in "search". -/
def exSearchTool : MCPToolInfo := { name := "tavily-search" }

/-- A tool whose name does not end in "search". -/
def exPythonTool : MCPToolInfo := { name := "python_repl" }

/-- A state whose last (only) message is a plain user message, as the
investigator expects. -/
def investigatorState : State :=
  { baseState with
    messages := [some { role := "user", content := ['h', 'i'], toolCalls := [] }]
    enableBackgroundInvestigation := true }

/-- A tool runner that always fails with a fixed error. -/
def failingRunTool : MCPToolInfo → List Char → String × Option String :=
  fun _ _ => ("", some "network unreachable")

/-- A tool runner that always succeeds with a fixed result. -/
def okRunTool : MCPToolInfo → List Char → String × Option String :=
  fun _ _ => ("search results", none)

/-- A plan the planner just produced, with enough context. -/
def confidentPlan : Plan :=
  { title := "p", thought := "th", hasEnoughContext := true, steps := [] }

/-- A message whose content is 50001 characters long (just above the
truncation limit). -/
def longMsg : Message :=
  { role := "user", content := List.replicate 50001 'a', toolCalls := [] }

/-- A message whose content is 60000 characters long, the instance named
by the truncation claim. -/
def msg60k : Message :=
  { role := "user", content := List.replicate 60000 'a', toolCalls := [] }

/-! ## Theorems -/

/-- The research-team scan agrees with "the first step (in list order)
whose `executionRes` is absent": it is `List.find?` of that predicate,
mapped through the Research→Researcher / Processing→Coder table. -/
theorem teamScan_eq_find (steps : List Step) :
    teamScan steps =
      (steps.find? fun st => st.executionRes.isNone).map
        (fun st =>
          match st.stepType with
          | .research => Researcher
          | .processing => Coder) := by
  induction steps with
  | nil => rfl
  | cons step rest ih =>
    cases h : step.executionRes with
    | none =>
      cases hty : step.stepType <;>
        simp [teamScan, List.find?_cons, h, hty]
    | some v =>
      simp [teamScan, List.find?_cons, h, ih]

/-- C1: Research Team router decision table: nil plan ⇒ Planner; else the
first step (in list order) with absent `executionRes` dispatches by its
`stepType` (Research ⇒ Researcher, Processing ⇒ Coder); with no such step,
Reporter iff `planIterations ≥ maxPlanIterations`, else Planner. -/
theorem teamRouter_decision_table (s : State) :
    (s.currentPlan = none →
        (teamRouter s).1.goto = Planner) ∧
    (∀ plan, s.currentPlan = some plan →
      (∀ st, (plan.steps.find? fun st => st.executionRes.isNone) = some st →
          (st.stepType = StepType.research → (teamRouter s).1.goto = Researcher) ∧
          (st.stepType = StepType.processing → (teamRouter s).1.goto = Coder)) ∧
      ((plan.steps.find? fun st => st.executionRes.isNone) = none →
          (teamRouter s).1.goto =
            if s.planIterations ≥ s.maxPlanIterations then Reporter else Planner)) := by
  constructor
  · intro hnone
    simp [teamRouter, hnone]
  · intro plan hplan
    constructor
    · intro st hfind
      constructor <;> intro hty <;>
        simp [teamRouter, hplan, teamScan_eq_find, hfind, hty]
    · intro hfind
      by_cases hit : s.planIterations ≥ s.maxPlanIterations <;>
        simp [teamRouter, hplan, teamScan_eq_find, hfind, hit]

/-- Witness for C1 at a concrete state: a plan whose first unfinished step
is a Processing step routes to the Coder. -/
theorem teamRouter_decision_table_witness :
    (teamRouter teamExState).1.goto = Coder := by
  have h := (teamRouter_decision_table teamExState).2 examplePlan rfl
  exact (h.1 examplePlan.steps[1] (by decide)).2 rfl

/-- C2: Planner router outcome policy: parse failure with
`planIterations = 0` ⇒ `goto = END` with `planIterations` unchanged;
parse failure with `planIterations > 0` ⇒ `goto = Reporter`; parse
success ⇒ `planIterations` incremented by exactly 1 and `goto = Reporter`
iff the plan has enough context, `Human` otherwise; and the router never
returns an error. -/
theorem routerPlanner_policy (s : State) (parsed : Option Plan) :
    (parsed = none → s.planIterations = 0 →
        (routerPlanner parsed s).state.goto = END ∧
        (routerPlanner parsed s).state.planIterations = s.planIterations) ∧
    (parsed = none → s.planIterations > 0 →
        (routerPlanner parsed s).state.goto = Reporter) ∧
    (∀ p, parsed = some p →
        (routerPlanner parsed s).state.planIterations = s.planIterations + 1 ∧
        (routerPlanner parsed s).state.goto =
          if p.hasEnoughContext then Reporter else Human) ∧
    (routerPlanner parsed s).err = false := by
  refine ⟨?_, ?_, ?_, ?_⟩
  · rintro rfl hzero
    simp [routerPlanner, hzero]
  · rintro rfl hpos
    simp [routerPlanner, hpos]
  · rintro p rfl
    by_cases hctx : p.hasEnoughContext <;>
      simp [routerPlanner, hctx]
  · cases parsed with
    | none =>
      by_cases hpos : s.planIterations > 0 <;> simp [routerPlanner, hpos]
    | some p =>
      by_cases hctx : p.hasEnoughContext <;> simp [routerPlanner, hctx]

/-- Witness for C2: a successfully parsed plan with enough context, on
the initial state, bumps `planIterations` to 1 and routes to Reporter. -/
theorem routerPlanner_policy_witness :
    (routerPlanner (some confidentPlan) baseState).state.planIterations =
        baseState.planIterations + 1 ∧
    (routerPlanner (some confidentPlan) baseState).state.goto = Reporter := by
  have h :=
    ((routerPlanner_policy baseState (some confidentPlan)).2.2.1 confidentPlan rfl)
  exact ⟨h.1, by simpa using h.2⟩

/-- C3: Human-feedback router with `autoAcceptedPlan = false`:
"accepted" routes to ResearchTeam, "edit_plan" routes to Planner, and on
both non-interrupt paths `interruptFeedback` is cleared to "" and no
interrupt is signalled. -/
theorem routerHuman_nonInterrupt (s : State) (hauto : s.autoAcceptedPlan = false) :
    (s.interruptFeedback = AcceptPlan →
        (routerHuman s).state.goto = ResearchTeam ∧
        (routerHuman s).output = ResearchTeam ∧
        (routerHuman s).state.interruptFeedback = "" ∧
        (routerHuman s).interrupt = false) ∧
    (s.interruptFeedback = EditPlan →
        (routerHuman s).state.goto = Planner ∧
        (routerHuman s).output = Planner ∧
        (routerHuman s).state.interruptFeedback = "" ∧
        (routerHuman s).interrupt = false) := by
  constructor <;> intro hfb <;>
    simp [routerHuman, hauto, hfb, AcceptPlan, EditPlan]

/-- Witness for C3: the concrete "accepted" state routes to ResearchTeam
with the feedback consumed. -/
theorem routerHuman_nonInterrupt_witness :
    (routerHuman humanAcceptState).state.goto = ResearchTeam ∧
    (routerHuman humanAcceptState).state.interruptFeedback = "" := by
  have h := (routerHuman_nonInterrupt humanAcceptState rfl).1 rfl
  exact ⟨h.1, h.2.2.1⟩

/-- C4 counterexample: on the interrupt path the state is *not* left
unchanged.  With `autoAcceptedPlan = false` and empty `interruptFeedback`
the router does signal interrupt-and-rerun, but the deferred block has
already overwritten `goto` (Human → ResearchTeam); so some field of State
differs from its value on entry, refuting the claimed idempotent
re-entry. -/
theorem routerHuman_interrupt_mutates :
    (routerHuman humanEmptyState).interrupt = true ∧
    (routerHuman humanEmptyState).state.goto ≠ humanEmptyState.goto ∧
    (routerHuman humanEmptyState).state ≠ humanEmptyState := by
  decide

/-- C4 (amended): with `autoAcceptedPlan = false` and `interruptFeedback`
neither "accepted" nor "edit_plan", the router signals the
interrupt-and-rerun condition instead of a next node; the invocation is
not state-preserving, though: `goto` is set to ResearchTeam and
`interruptFeedback` is cleared to "", while every other field of State is
unchanged. -/
theorem routerHuman_interrupt_path (s : State)
    (hauto : s.autoAcceptedPlan = false)
    (h1 : s.interruptFeedback ≠ AcceptPlan)
    (h2 : s.interruptFeedback ≠ EditPlan) :
    (routerHuman s).interrupt = true ∧
    (routerHuman s).state = { s with goto := ResearchTeam, interruptFeedback := "" } := by
  simp [routerHuman, hauto, h1, h2]

/-- Witness for the amended C4 at the concrete empty-feedback state. -/
theorem routerHuman_interrupt_path_witness :
    (routerHuman humanEmptyState).interrupt = true ∧
    (routerHuman humanEmptyState).state =
      { humanEmptyState with goto := ResearchTeam, interruptFeedback := "" } :=
  routerHuman_interrupt_path humanEmptyState rfl (by decide) (by decide)

/-- C5 counterexample: a response that *contains* a hand-off tool call —
in second position — is routed to END with the locale untouched, because
the code inspects only `ToolCalls[0]`; the claim demands `goto = Planner`
(investigation disabled) and the locale set from the call. -/
theorem routerCoordinator_second_call_cex :
    (∃ tc ∈ secondCallMsg.toolCalls, tc.funcName = "hand_to_planner") ∧
    coordState.enableBackgroundInvestigation = false ∧
    (routerCoordinator secondCallMsg coordState).state.goto = END ∧
    (routerCoordinator secondCallMsg coordState).state.goto ≠ Planner ∧
    (routerCoordinator secondCallMsg coordState).state.locale = coordState.locale ∧
    (routerCoordinator secondCallMsg coordState).state.locale ≠ "zh-CN" := by
  decide

/-- C5 (amended): the coordinator router decides on the *first* tool call
of the response only: no tool calls ⇒ END; first call not the hand-off
tool ⇒ END with the locale untouched; first call is the hand-off tool
with JSON-parsable arguments ⇒ locale is set from the call's `locale`
argument (the Go map index, "" if the key is absent) and `goto` is
BackgroundInvestigator when background investigation is enabled, Planner
otherwise. -/
theorem routerCoordinator_first_call_table (msg : Message) (s : State) :
    (msg.toolCalls = [] → (routerCoordinator msg s).state.goto = END) ∧
    (∀ tc rest, msg.toolCalls = tc :: rest →
      (tc.funcName ≠ "hand_to_planner" →
          (routerCoordinator msg s).state.goto = END ∧
          (routerCoordinator msg s).state.locale = s.locale) ∧
      (tc.funcName = "hand_to_planner" →
        ∀ m, tc.args = some m →
          (routerCoordinator msg s).state.locale = mapIndex m "locale" ∧
          (routerCoordinator msg s).state.goto =
            if s.enableBackgroundInvestigation then BackgroundInvestigator
            else Planner)) := by
  constructor
  · intro h
    simp [routerCoordinator, h]
  · intro tc rest h
    constructor
    · intro hname
      simp [routerCoordinator, h, hname]
    · intro hname m hargs
      by_cases hbi : s.enableBackgroundInvestigation <;>
        simp [routerCoordinator, h, hname, hargs, hbi]

/-- Witness for the amended C5: a sole well-formed hand-off call sets the
locale and routes to Planner (investigation disabled). -/
theorem routerCoordinator_first_call_table_witness :
    (routerCoordinator handoffMsg coordState).state.locale = "zh-CN" ∧
    (routerCoordinator handoffMsg coordState).state.goto = Planner := by
  have h :=
    ((routerCoordinator_first_call_table handoffMsg coordState).2
        handoffMsg.toolCalls[0] [] rfl).2 rfl
      [("task_title", "t"), ("locale", "zh-CN")] rfl
  exact ⟨h.1.trans (by decide), h.2.trans (by decide)⟩

/-- C6: malformed hand-off arguments are tolerated by the coordinator
router: the unmarshal error is produced inside the `ProcessState` closure
but the router returns nil (`return output, nil`), so the run is not
aborted, and `state.Locale` keeps the value it had on entry. -/
theorem routerCoordinator_malformed_args (msg : Message) (s : State)
    (tc : ToolCall) (rest : List ToolCall)
    (h : msg.toolCalls = tc :: rest)
    (hname : tc.funcName = "hand_to_planner")
    (hargs : tc.args = none) :
    (routerCoordinator msg s).err = false ∧
    (routerCoordinator msg s).state.locale = s.locale := by
  simp [routerCoordinator, h, hname, hargs]

/-- Witness for C6 at a concrete malformed-arguments call. -/
theorem routerCoordinator_malformed_args_witness :
    (routerCoordinator badArgsMsg coordState).err = false ∧
    (routerCoordinator badArgsMsg coordState).state.locale = coordState.locale :=
  routerCoordinator_malformed_args badArgsMsg coordState
    badArgsMsg.toolCalls[0] [] rfl rfl rfl

/-- The result-writing loop preserves the number of steps. -/
theorem setFirstUnexecuted_length (content : String) (steps : List Step) :
    (setFirstUnexecuted content steps).length = steps.length := by
  induction steps with
  | nil => rfl
  | cons step rest ih =>
    by_cases h : step.executionRes = none <;>
      simp [setFirstUnexecuted, h, ih]

/-- Index-wise description of the result-writing loop, relative to the
index of the first step with an absent result: that step gets
`executionRes := some content`; every other index is unchanged. -/
theorem setFirstUnexecuted_spec (content : String) (steps : List Step)
    (hex : ∃ st ∈ steps, st.executionRes = none) :
    steps.findIdx (fun st => st.executionRes.isNone) < steps.length ∧
    ∀ k : Nat,
      (setFirstUnexecuted content steps)[k]? =
        if k = steps.findIdx (fun st => st.executionRes.isNone) then
          (steps[k]?).map fun st => { st with executionRes := some content }
        else steps[k]? := by
  induction steps with
  | nil => simp at hex
  | cons step rest ih =>
    by_cases h : step.executionRes = none
    · have hfi : (step :: rest).findIdx (fun st => st.executionRes.isNone) = 0 := by
        simp [List.findIdx_cons, h]
      refine ⟨by simp [hfi], ?_⟩
      intro k
      cases k with
      | zero => simp [setFirstUnexecuted, h, hfi]
      | succ n => simp [setFirstUnexecuted, h, hfi]
    · have hex' : ∃ st ∈ rest, st.executionRes = none := by
        rcases hex with ⟨st, hst, hnone⟩
        rcases List.mem_cons.mp hst with rfl | hmem
        · exact absurd hnone h
        · exact ⟨st, hmem, hnone⟩
      obtain ⟨v, hv⟩ : ∃ v, step.executionRes = some v :=
        Option.ne_none_iff_exists'.mp h
      have hfi : (step :: rest).findIdx (fun st => st.executionRes.isNone) =
          rest.findIdx (fun st => st.executionRes.isNone) + 1 := by
        simp [List.findIdx_cons, hv]
      obtain ⟨ihlt, ihk⟩ := ih hex'
      refine ⟨?_, ?_⟩
      · simp only [hfi, List.length_cons]
        omega
      · intro k
        cases k with
        | zero => simp [setFirstUnexecuted, hv, hfi]
        | succ n => simpa [setFirstUnexecuted, hv, hfi] using ihk n

/-- C7: Researcher/Coder single-step update frame property: when the plan
has at least one step with an absent result, one router invocation
produces (in both the researcher's and the coder's router, whose update
loops are identical) a state whose plan sets `executionRes` of exactly
the first such step to the model output, leaves every other step — in
particular every earlier, already-resulted one — unchanged, and whose
`goto` is ResearchTeam; no other state field changes. -/
theorem routerResearcher_frame (s : State) (plan : Plan) (content : String)
    (hplan : s.currentPlan = some plan)
    (hex : ∃ st ∈ plan.steps, st.executionRes = none) :
    ∃ plan',
      routerResearcher content s =
        .ok ({ s with currentPlan := some plan', goto := ResearchTeam },
          ResearchTeam) ∧
      routerCoder content s =
        .ok ({ s with currentPlan := some plan', goto := ResearchTeam },
          ResearchTeam) ∧
      plan'.title = plan.title ∧
      plan'.thought = plan.thought ∧
      plan'.hasEnoughContext = plan.hasEnoughContext ∧
      plan'.steps.length = plan.steps.length ∧
      plan'.steps[plan.steps.findIdx fun st => st.executionRes.isNone]? =
        (plan.steps[plan.steps.findIdx fun st => st.executionRes.isNone]?).map
          (fun st => { st with executionRes := some content }) ∧
      ∀ k : Nat, k ≠ (plan.steps.findIdx fun st => st.executionRes.isNone) →
        plan'.steps[k]? = plan.steps[k]? := by
  obtain ⟨hlt, hk⟩ := setFirstUnexecuted_spec content plan.steps hex
  refine ⟨{ plan with steps := setFirstUnexecuted content plan.steps },
    ?_, ?_, rfl, rfl, rfl, setFirstUnexecuted_length content plan.steps, ?_, ?_⟩
  · simp [routerResearcher, hplan]
  · simp [routerCoder, hplan]
  · simpa using hk (plan.steps.findIdx fun st => st.executionRes.isNone)
  · intro k hkne
    simpa [hkne] using hk k

/-- Witness for C7: the two-step example plan (step 0 already resulted,
step 1 pending) gets its step 1 filled in with the given output. -/
theorem routerResearcher_frame_witness :
    ∃ plan',
      routerResearcher "output" teamExState =
        .ok ({ teamExState with currentPlan := some plan', goto := ResearchTeam },
          ResearchTeam) ∧
      plan'.steps[1]? =
        (examplePlan.steps[1]?).map
          (fun st => { st with executionRes := some "output" }) ∧
      plan'.steps[0]? = examplePlan.steps[0]? := by
  obtain ⟨plan', h1, _, _, _, _, _, hj, hother⟩ :=
    routerResearcher_frame teamExState examplePlan "output" rfl
      ⟨examplePlan.steps[1], by decide⟩
  have hfi : (examplePlan.steps.findIdx fun st => st.executionRes.isNone) = 1 := by
    decide
  refine ⟨plan', h1, ?_, ?_⟩
  · rw [← hfi]
    exact hj
  · exact hother 0 (by omega)

/-- C8 counterexample: in the investigator that is wired into the graph
(agent/investigator/investigator.go), a failing search-tool invocation is
*not* swallowed: the node returns the error (the closure's `return err`
propagates through `return output, err`), and no state with empty results
is produced. -/
theorem searchLive_error_cex :
    searchLive [exSearchTool] failingRunTool investigatorState =
      .errored "network unreachable" ∧
    searchLive [exSearchTool] failingRunTool investigatorState ≠
      .ok { investigatorState with backgroundInvestigationResults := "" } := by
  decide

/-- C8 (amended): when the selected search tool's invocation returns an
error, the live investigator (agent/investigator) logs it and returns the
error from the node — the run is not continued and
`backgroundInvestigationResults` is not written; only the legacy eino
investigator (biz/eino/investigator.go) swallows the error, storing the
(empty) result string and returning without error, after which the
investigator's router unconditionally sets `goto = Planner`. -/
theorem searchInvestigator_error_policy :
    (∀ (toolList : List MCPToolInfo)
        (runTool : MCPToolInfo → List Char → String × Option String)
        (s : State) (t : MCPToolInfo) (q : List Char) (r e : String),
        selectSearchToolLive toolList = some t →
        lastMessageContent s = some q →
        runTool t q = (r, some e) →
        searchLive toolList runTool s = .errored e) ∧
    (∀ (servers : List (Option (List MCPToolInfo)))
        (runTool : MCPToolInfo → List Char → String × Option String)
        (s : State) (t : MCPToolInfo) (q : List Char) (r e : String),
        selectSearchToolEino servers = some t →
        lastMessageContent s = some q →
        runTool t q = (r, some e) →
        searchEino servers runTool s =
          .ok { s with backgroundInvestigationResults := r }) ∧
    (∀ s : State, (routerInvestigator s).1.goto = Planner) := by
  refine ⟨?_, ?_, fun s => rfl⟩
  · intro toolList runTool s t q r e hsel hlast hrun
    simp [searchLive, hsel, hlast, hrun]
  · intro servers runTool s t q r e hsel hlast hrun
    simp [searchEino, hsel, hlast, hrun]

/-- Witness for the amended C8 at the concrete failing tool run. -/
theorem searchInvestigator_error_policy_witness :
    searchLive [exSearchTool] failingRunTool investigatorState =
      .errored "network unreachable" :=
  searchInvestigator_error_policy.1 [exSearchTool] failingRunTool
    investigatorState exSearchTool ['h', 'i'] "" "network unreachable"
    rfl rfl rfl

/-- C9: message truncation guard: a non-nil message at any position keeps
its content when it is within the 50,000 limit; above the limit the
content is replaced by exactly its last 50,000 characters (the suffix of
length 50,000, i.e. `drop (len - 50000)`), the prefix being discarded; in
particular a 60,000-character content becomes its last 50,000
characters. -/
theorem modifyInputfunc_truncation (input : List (Option Message)) (k : Nat)
    (msg : Message) (h : input[k]? = some (some msg)) :
    (msg.content.length ≤ 50000 → (modifyInputfunc input)[k]? = some (some msg)) ∧
    (msg.content.length > 50000 →
      (modifyInputfunc input)[k]? =
        some (some
          { msg with content := msg.content.drop (msg.content.length - 50000) }) ∧
      (msg.content.drop (msg.content.length - 50000)).length = 50000 ∧
      msg.content.drop (msg.content.length - 50000) <:+ msg.content) ∧
    (msg.content.length = 60000 →
      (modifyInputfunc input)[k]? =
        some (some { msg with content := msg.content.drop 10000 })) := by
  have hmap : (modifyInputfunc input)[k]? = some (some (truncateMsg msg)) := by
    simp [modifyInputfunc, List.getElem?_map, h]
  refine ⟨?_, ?_, ?_⟩
  · intro hle
    have ht : truncateMsg msg = msg := by
      simp [truncateMsg, maxLimit]
      omega
    rw [hmap, ht]
  · intro hgt
    have ht : truncateMsg msg =
        { msg with content := msg.content.drop (msg.content.length - 50000) } := by
      simp [truncateMsg, maxLimit, hgt]
    refine ⟨by rw [hmap, ht], ?_, List.drop_suffix _ _⟩
    rw [List.length_drop]
    omega
  · intro h60
    have ht : truncateMsg msg = { msg with content := msg.content.drop 10000 } := by
      simp [truncateMsg, maxLimit, h60]
    rw [hmap, ht]

/-- Witness for C9: a 50,001-character message is truncated to its last
50,000 characters. -/
theorem modifyInputfunc_truncation_witness :
    (modifyInputfunc [some longMsg])[0]? =
      some (some
        { longMsg with
          content := longMsg.content.drop (longMsg.content.length - 50000) }) :=
  ((modifyInputfunc_truncation [some longMsg] 0 longMsg rfl).2.1
    (by show (List.replicate 50001 'a').length > 50000
        rw [List.length_replicate]
        omega)).1

/-- With every server either failing to list its tools or listing no
"search"-suffixed tool, the legacy per-server selection loop ends with a
nil tool interface. -/
theorem selectSearchToolEino_eq_none (servers : List (Option (List MCPToolInfo)))
    (h : ∀ o ∈ servers, ∀ ts, o = some ts →
        ∀ t ∈ ts, goHasSuffix t.name "search" = false) :
    selectSearchToolEino servers = none := by
  induction servers with
  | nil => rfl
  | cons o rest ih =>
    have hrest : ∀ o' ∈ rest, ∀ ts, o' = some ts →
        ∀ t ∈ ts, goHasSuffix t.name "search" = false :=
      fun o' ho' => h o' (List.mem_cons_of_mem _ ho')
    cases o with
    | none => simpa [selectSearchToolEino] using ih hrest
    | some ts =>
      have hfind : ts.find? (fun t => goHasSuffix t.name "search") = none := by
        rw [List.find?_eq_none]
        intro t ht
        simp [h (some ts) (List.mem_cons_self _ _) ts rfl t ht]
      simpa [selectSearchToolEino, hfind] using ih hrest

/-- C10: when no available tool has a name ending in "search" — and, for
the legacy per-server variant, also when every server's tool listing
fails — the search stage goes on to call `InvokableRun` on the nil tool
interface and panics with a nil-pointer dereference instead of returning
an error; nothing but the search-tool-exists precondition guards the
call. -/
theorem searchStage_nil_tool_panics :
    (∀ (toolList : List MCPToolInfo)
        (runTool : MCPToolInfo → List Char → String × Option String)
        (s : State),
        (∀ t ∈ toolList, goHasSuffix t.name "search" = false) →
        searchLive toolList runTool s = .panicked) ∧
    (∀ (servers : List (Option (List MCPToolInfo)))
        (runTool : MCPToolInfo → List Char → String × Option String)
        (s : State),
        (∀ o ∈ servers, ∀ ts, o = some ts →
            ∀ t ∈ ts, goHasSuffix t.name "search" = false) →
        searchEino servers runTool s = .panicked) := by
  constructor
  · intro toolList runTool s h
    have hsel : selectSearchToolLive toolList = none := by
      rw [selectSearchToolLive, List.find?_eq_none]
      intro t ht
      simp [h t ht]
    cases hlast : lastMessageContent s <;> simp [searchLive, hsel, hlast]
  · intro servers runTool s h
    have hsel := selectSearchToolEino_eq_none servers h
    cases hlast : lastMessageContent s <;> simp [searchEino, hsel, hlast]

/-- Witness for C10: a registry holding only a python tool (no
"search"-suffixed name) makes the live search stage panic. -/
theorem searchStage_nil_tool_panics_witness :
    searchLive [exPythonTool] okRunTool investigatorState = .panicked :=
  searchStage_nil_tool_panics.1 [exPythonTool] okRunTool investigatorState
    (by decide)


end DeerFlow
